import Mathlib

/-!
Verification development for the batch-scoring orchestrator of the
Cyber-Security-NEWS aggregator (`core/ai.py`, class `GeminiScorer`).

The Python code drives batches of articles through an external scoring
service, multiplexing over a pool of API keys (credentials) and a fixed
catalog of fallback model names (endpoints).  Scores are Python floats; we
model them as rationals (`ℚ`), which is faithful for every comparison and
constant the code uses (0.0, 5.0, 6.0, 10.0 and parsed literals).  The
external call (`generate_content_async`, the `.text` accessor and
`json.loads`) is modelled as an oracle, one result per issued request:
either no usable text, a raised exception carrying its message string, or
the parsed JSON payload.  Everything downstream of that point — error
classification by substring match on the lowercased message, the
div/mod attempt-matrix traversal, credential rotation, judgment
application, default/sentinel handling — is translated directly from the
source.  Python's reference semantics for `Article` objects (the batch
list and the `approved_articles` list alias the same objects) is modelled
by keeping the batch as an indexed list and recording approved articles as
indices into it, materialised only once the batch is finished, exactly
when the Python objects stop being mutated.
-/

namespace CyberNews

/-- The `core/models.py` dataclass `Article`: the fields the scorer reads or
writes (url/published_at never flow into the scoring logic). -/
structure Article where
  title : String
  source : String
  summary : String
  content : String
  content_hash : String
  score : ℚ
  relevance_reason : String
deriving Repr, DecidableEq

instance : Inhabited Article := ⟨⟨"", "", "", "", "", 0, ""⟩⟩

/-- The mutable fields of `GeminiScorer` that the attempt loops read or
write: `len(self.api_keys)`, `self.current_key_index`,
`self.fallback_models` and `self.current_model_name`.  (`self.model` is a
client object rebuilt from `current_model_name`; it carries no extra
state.  `self.model is None` holds exactly when `numKeys = 0`.) -/
structure ScorerSt where
  numKeys : Nat
  currentKey : Nat
  models : List String
  currentModel : String
deriving Repr, DecidableEq

/-- The fixed fallback-model catalog built in `GeminiScorer.__init__`. -/
def fallback_models : List String :=
  [ "gemini-2.5-flash", "gemini-2.5-flash-lite", "gemini-2.5-pro",
    "gemini-3-flash-preview", "gemini-2.0-flash", "gemini-2.0-flash-lite",
    "gemma-3-27b-it", "gemma-3-12b-it", "gemma-3-4b-it",
    "gemma-3n-e4b-it", "gemma-3n-e2b-it", "gemma-3-1b-it" ]

/-- Rotation, `_rotate_api_key` (ai.py lines 52–65): no-op returning False when the
pool has at most one key, otherwise advance `current_key_index`
circularly and return True.  (The `genai.configure`/`GenerativeModel`
rebind has no effect on the modelled state: `current_model_name` is
unchanged.) -/
def rotateApiKey (s : ScorerSt) : Bool × ScorerSt :=
  if s.numKeys ≤ 1 then (false, s)
  else (true, { s with currentKey := (s.currentKey + 1) % s.numKeys })

/-- Occurrence of `sub` as a contiguous run inside `s` — Python's
`sub in s` on strings, at the character-list level. -/
def subOccurs (sub : List Char) : List Char → Bool
  | [] => sub.isEmpty
  | c :: rest => sub.isPrefixOf (c :: rest) || subOccurs sub rest

/-- Python `str.lower()`, per character.  (`Char.toLower` lowers the
ASCII range, which covers every pattern the classifier searches for.) -/
def lowerStr (s : String) : List Char :=
  s.toList.map Char.toLower

/-- The three error classes the `except` blocks distinguish. -/
inductive ErrClass where
  | notFound
  | quota
  | generic
deriving Repr, DecidableEq

/-- Classification: `error_msg = str(e).lower()` followed by the substring tests
`'404' in error_msg or 'not found' in error_msg` and
`'429' in error_msg or 'quota' in error_msg` (ai.py 152–158 and the
identical blocks of the other two loops). -/
def classifyError (msg : String) : ErrClass :=
  let m := lowerStr msg
  if subOccurs "404".toList m || subOccurs "not found".toList m then .notFound
  else if subOccurs "429".toList m || subOccurs "quota".toList m then .quota
  else .generic

/-- A JSON number field as the code consumes it: either a value that
`float(...)` coerces, or one on which `float(...)` raises with the given
message. -/
inductive JNum where
  | num (q : ℚ)
  | bad (msg : String)
deriving Repr, DecidableEq

/-- One record of the parsed judgment array (`data["articles"]` /
`data["scores"]` elements): `"id"` and `"score"` keys, each possibly
absent (`dict.get` with default). -/
structure JudgmentItem where
  id : Option Int := none
  score : Option JNum := none
deriving Repr, DecidableEq

/-- Coercion `float(item.get("score", dflt))`: absent key yields the (coercible)
default, a bad value raises with its message. -/
def coerceScore (v : Option JNum) (dflt : ℚ) : Except String ℚ :=
  match v with
  | none => .ok dflt
  | some (.num q) => .ok q
  | some (.bad m) => .error m

/-- Outcome of one issued request, as seen by the loop body after the
response/text checks and `json.loads`:
* `noText` — falsy response, missing `text` attribute, or `.text`
  raising (ai.py 126–134): the loop `continue`s;
* `raised msg` — `generate_content_async` or `json.loads` raised; the
  message reaches the `except` classifier;
* `parsed items` — parse succeeded; `items` is
  `data.get("articles"/"scores", [])`. -/
inductive ApiResult where
  | noText
  | raised (msg : String)
  | parsed (items : List JudgmentItem)

/-- Same for `score_article`, whose payload is a single
`{"score": ..., "reason": ...}` object. -/
inductive SingleApiResult where
  | noText
  | raised (msg : String)
  | parsed (score : Option JNum) (reason : Option String)

/-- The `scores` dict, content_hash → score.  Assignment is modelled by
consing, lookup by first match (latest assignment wins), membership by
`lookup.isSome` — the observations the code makes of the dict. -/
abbrev ScoresDict := List (String × ℚ)

/-- ai.py 260–266: map parsed judgment records onto the batch.  The batch
list plays the role of the Python object store: `article.score = s`
becomes `List.set`.  `float` raising aborts the remaining records,
returning the partial updates together with the exception message. -/
def applyScoreJudgments : List Article → ScoresDict → List JudgmentItem →
    List Article × ScoresDict × Option String
  | arts, scores, [] => (arts, scores, none)
  | arts, scores, j :: rest =>
    let article_id : Int := j.id.getD 0
    match coerceScore j.score 5 with
    | .error m => (arts, scores, some m)
    | .ok q =>
      if 1 ≤ article_id ∧ article_id ≤ (arts.length : Int) then
        let i := (article_id - 1).toNat
        let a := arts.getD i default
        applyScoreJudgments (arts.set i { a with score := q })
          ((a.content_hash, q) :: scores) rest
      else
        applyScoreJudgments arts scores rest

/-- ai.py 268–272: fill in any batch article whose hash is missing from
the dict with the 5.0 sentinel (sequential: each iteration sees the
inserts of the previous ones). -/
def fillMissing : List Article → ScoresDict → List Article × ScoresDict
  | [], scores => ([], scores)
  | a :: rest, scores =>
    if (scores.lookup a.content_hash).isSome then
      let (r, s) := fillMissing rest scores
      (a :: r, s)
    else
      let (r, s) := fillMissing rest ((a.content_hash, 5) :: scores)
      ({ a with score := 5 } :: r, s)

/-- ai.py 294–296 / 302–304 / 310–312 (three identical blocks): default
every article of the batch to 5.0 and record it in the dict. -/
def scoreDefaultAll (batch : List Article) (scores : ScoresDict) :
    List Article × ScoresDict :=
  (batch.map fun a => { a with score := 5 },
   batch.foldl (fun sc a => (a.content_hash, (5 : ℚ)) :: sc) scores)

/-- ai.py 140–146: apply parsed judgment records in the combined
filter+score variant.  `approved` accumulates indices into the batch
(Python appends object references; the reference is the index).  Only
records with an in-range 1-based id and score ≥ 6.0 are appended. -/
def applyFilterJudgments : List Article → List Nat → List JudgmentItem →
    List Article × List Nat × Option String
  | arts, approved, [] => (arts, approved, none)
  | arts, approved, j :: rest =>
    let article_id : Int := j.id.getD 0
    match coerceScore j.score 0 with
    | .error m => (arts, approved, some m)
    | .ok q =>
      if 1 ≤ article_id ∧ article_id ≤ (arts.length : Int) ∧ 6 ≤ q then
        let i := (article_id - 1).toNat
        let a := arts.getD i default
        applyFilterJudgments (arts.set i { a with score := q })
          (approved ++ [i]) rest
      else
        applyFilterJudgments arts approved rest

/-- ai.py 168–170 / 176–178 / 184–186 (three identical blocks): set every
article of the batch to 6.0 and append the whole batch to the approved
list. -/
def filterDefaultAll (batch : List Article) (approved : List Nat) :
    List Article × List Nat :=
  (batch.map fun a => { a with score := 6 },
   approved ++ List.range batch.length)

/-- What the shared `except` classifier decides for the batch loops:
either advance to the next attempt with an updated scorer state, or stop
this batch and apply the default outcome. -/
inductive ErrDecision where
  | cont (st : ScorerSt)
  | exhaustBatch (st : ScorerSt)

/-- ai.py 152–173 (and the textually identical 278–299): the `except`
block of both batch loops.  `mi`/`ki` are the `model_index`/`key_index`
derived from the attempt counter.  404/not-found advances; quota advances
unless this was the last model, in which case the key is rotated (with
the model name reset to the head of the catalog) when more keys remain,
and the batch is defaulted otherwise; any other error defaults the
batch immediately. -/
def batchHandleErr (st : ScorerSt) (mi ki : Nat) (msg : String) : ErrDecision :=
  match classifyError msg with
  | .notFound => .cont st
  | .quota =>
    if mi = st.models.length - 1 then
      if ki < st.numKeys - 1 then
        match rotateApiKey st with
        | (true, st2) => .cont { st2 with currentModel := st2.models.getD 0 "" }
        | (false, st2) => .cont st2
      else .exhaustBatch st
    else .cont st
  | .generic => .exhaustBatch st

/-- ai.py 371–397: the `except` block of `score_article`.  Unlike the
batch loops, a generic error `continue`s, and quota exhaustion returns
the 5.0 sentinel immediately (`exhaustBatch` here means "return 5.0"). -/
def itemHandleErr (st : ScorerSt) (mi ki : Nat) (msg : String) : ErrDecision :=
  match classifyError msg with
  | .notFound => .cont st
  | .quota =>
    if mi = st.models.length - 1 then
      if ki < st.numKeys - 1 then
        match rotateApiKey st with
        | (true, st2) => .cont { st2 with currentModel := st2.models.getD 0 "" }
        | (false, st2) => .cont st2
      else .exhaustBatch st
    else .cont st
  | .generic => .cont st

/-- Result of the filter-variant attempt loop for one batch.  `trace`
records, for each request actually issued, the
(`current_key_index`, `model_index`) pair bound at that attempt — the
credential/endpoint actually used. -/
structure FilterOut where
  st : ScorerSt
  arts : List Article
  approved : List Nat
  success : Bool
  trace : List (Nat × Nat)
deriving Repr, DecidableEq

/-- Result of the scoring-variant attempt loop for one batch. -/
structure ScoreOut where
  st : ScorerSt
  arts : List Article
  scores : ScoresDict
  success : Bool
  trace : List (Nat × Nat)
deriving Repr, DecidableEq

/-- Result of the `score_article` attempt loop. -/
structure ItemOut where
  st : ScorerSt
  article : Article
  result : Option ℚ
  trace : List (Nat × Nat)
deriving Repr, DecidableEq

/-- ai.py 111–186: the attempt loop of `batch_filter_and_score_articles`
for one batch.  `remaining` counts the attempts still allowed
(`max_attempts - attempt`); the loop body derives
`model_index = attempt % len(models)` and
`key_index = attempt // len(models)`, rebinds the model name, issues the
request, and dispatches on the outcome as the source does. -/
def filterAttempts (oracle : Nat → ApiResult) :
    Nat → Nat → ScorerSt → List Article → List Nat → FilterOut
  | 0, _, st, arts, approved => ⟨st, arts, approved, false, []⟩
  | remaining + 1, attempt, st, arts, approved =>
    let mi := attempt % st.models.length
    let ki := attempt / st.models.length
    let st1 := { st with currentModel := st.models.getD mi "" }
    let entry := (st1.currentKey, mi)
    let r :=
      match oracle attempt with
      | .noText => filterAttempts oracle remaining (attempt + 1) st1 arts approved
      | .raised msg =>
        match batchHandleErr st1 mi ki msg with
        | .cont st2 => filterAttempts oracle remaining (attempt + 1) st2 arts approved
        | .exhaustBatch st2 =>
          let p := filterDefaultAll arts approved
          ⟨st2, p.1, p.2, true, []⟩
      | .parsed items =>
        match applyFilterJudgments arts approved items with
        | (arts', approved', some msg) =>
          match batchHandleErr st1 mi ki msg with
          | .cont st2 => filterAttempts oracle remaining (attempt + 1) st2 arts' approved'
          | .exhaustBatch st2 =>
            let p := filterDefaultAll arts' approved'
            ⟨st2, p.1, p.2, true, []⟩
        | (arts', approved', none) => ⟨st1, arts', approved', true, []⟩
    ⟨r.st, r.arts, r.approved, r.success, entry :: r.trace⟩

/-- ai.py 107–186: one batch of `batch_filter_and_score_articles`:
run the attempt loop with `max_attempts = |keys| * |models|`, then the
`if not batch_success` fallback (184–186). -/
def filterOneBatch (st : ScorerSt) (oracle : Nat → ApiResult)
    (batch : List Article) : FilterOut :=
  let maxA := st.numKeys * st.models.length
  let r := filterAttempts oracle maxA 0 st batch []
  if r.success then r
  else
    let p := filterDefaultAll r.arts r.approved
    ⟨r.st, p.1, p.2, r.success, r.trace⟩

/-- ai.py 231–306: the attempt loop of `batch_score_articles` for one
batch.  On a successful parse the judgments are applied and the missing
scores filled (268–272); an exception while applying feeds its message
back into the same `except` classifier. -/
def scoreAttempts (oracle : Nat → ApiResult) :
    Nat → Nat → ScorerSt → List Article → ScoresDict → ScoreOut
  | 0, _, st, arts, scores => ⟨st, arts, scores, false, []⟩
  | remaining + 1, attempt, st, arts, scores =>
    let mi := attempt % st.models.length
    let ki := attempt / st.models.length
    let st1 := { st with currentModel := st.models.getD mi "" }
    let entry := (st1.currentKey, mi)
    let r :=
      match oracle attempt with
      | .noText => scoreAttempts oracle remaining (attempt + 1) st1 arts scores
      | .raised msg =>
        match batchHandleErr st1 mi ki msg with
        | .cont st2 => scoreAttempts oracle remaining (attempt + 1) st2 arts scores
        | .exhaustBatch st2 =>
          let p := scoreDefaultAll arts scores
          ⟨st2, p.1, p.2, true, []⟩
      | .parsed items =>
        match applyScoreJudgments arts scores items with
        | (arts', scores', some msg) =>
          match batchHandleErr st1 mi ki msg with
          | .cont st2 => scoreAttempts oracle remaining (attempt + 1) st2 arts' scores'
          | .exhaustBatch st2 =>
            let p := scoreDefaultAll arts' scores'
            ⟨st2, p.1, p.2, true, []⟩
        | (arts', scores', none) =>
          let p := fillMissing arts' scores'
          ⟨st1, p.1, p.2, true, []⟩
    ⟨r.st, r.arts, r.scores, r.success, entry :: r.trace⟩

/-- ai.py 227–312: one batch of `batch_score_articles`, including the
`if not batch_success` fallback (308–312). -/
def scoreOneBatch (st : ScorerSt) (oracle : Nat → ApiResult)
    (batch : List Article) (scores : ScoresDict) : ScoreOut :=
  let maxA := st.numKeys * st.models.length
  let r := scoreAttempts oracle maxA 0 st batch scores
  if r.success then r
  else
    let p := scoreDefaultAll r.arts r.scores
    ⟨r.st, p.1, p.2, r.success, r.trace⟩

/-- Slicing `for i in range(0, len(articles), batch_size)`, via a fuel
bounded by the list length (sufficient whenever `0 < bs`; Python raises
on a zero step, so `bs = 0` never occurs). -/
def chunksGo (bs : Nat) : Nat → List α → List (List α)
  | _, [] => []
  | 0, l => [l]
  | fuel + 1, l => l.take bs :: chunksGo bs fuel (l.drop bs)

/-- The batch slices `articles[i:i+batch_size]`. -/
def chunkList (bs : Nat) (l : List α) : List (List α) :=
  chunksGo bs l.length l

/-- The per-batch iteration of `batch_score_articles`, threading the
scorer state and the global `scores` dict; returns the mutated article
list in input order.  `oracle b n` is the outcome of the request issued
for batch `b` at attempt counter `n`. -/
def batchScoreGo (oracle : Nat → Nat → ApiResult) :
    Nat → ScorerSt → ScoresDict → List (List Article) →
    ScorerSt × List Article × ScoresDict
  | _, st, scores, [] => (st, [], scores)
  | bIdx, st, scores, b :: rest =>
    let r := scoreOneBatch st (oracle bIdx) b scores
    let g := batchScoreGo oracle (bIdx + 1) r.st r.scores rest
    (g.1, r.arts ++ g.2.1, g.2.2)

/-- ai.py 191–315, `batch_score_articles`: guard
`if not self.model or not articles` (dict-comprehension default), then
the per-batch loop.  Returns (final scorer state, mutated articles,
content_hash → score dict). -/
def batchScoreArticles (st : ScorerSt) (oracle : Nat → Nat → ApiResult)
    (articles : List Article) (batch_size : Nat) :
    ScorerSt × List Article × ScoresDict :=
  if st.numKeys = 0 ∨ articles.isEmpty then
    (st, articles, articles.foldl (fun sc a => (a.content_hash, (5 : ℚ)) :: sc) [])
  else
    batchScoreGo oracle 0 st [] (chunkList batch_size articles)

/-- The per-batch iteration of `batch_filter_and_score_articles`: each
batch's approved indices are materialised into articles once the batch is
finished (after which the Python objects are no longer mutated). -/
def batchFilterGo (oracle : Nat → Nat → ApiResult) :
    Nat → ScorerSt → List (List Article) → ScorerSt × List Article
  | _, st, [] => (st, [])
  | bIdx, st, b :: rest =>
    let r := filterOneBatch st (oracle bIdx) b
    let g := batchFilterGo oracle (bIdx + 1) r.st rest
    (g.1, r.approved.map (fun i => r.arts.getD i default) ++ g.2)

/-- ai.py 67–189, `batch_filter_and_score_articles`: guard
`if not self.model: return articles` (pass-through), then the per-batch
loop.  Returns (final scorer state, approved articles). -/
def batchFilterAndScoreArticles (st : ScorerSt) (oracle : Nat → Nat → ApiResult)
    (articles : List Article) (batch_size : Nat) : ScorerSt × List Article :=
  if st.numKeys = 0 then (st, articles)
  else batchFilterGo oracle 0 st (chunkList batch_size articles)

/-- ai.py 340–397: the attempt loop of `score_article`.  A successful
parse coerces `data.get("score", 0.0)` (which may raise, feeding the
classifier), then sets `relevance_reason` and returns the score.  The
loop falling through (`remaining = 0`) leaves `result = none`; line 400
turns that into the 5.0 default. -/
def scoreArticleAttempts (oracle : Nat → SingleApiResult) :
    Nat → Nat → ScorerSt → Article → ItemOut
  | 0, _, st, a => ⟨st, a, none, []⟩
  | remaining + 1, attempt, st, a =>
    let mi := attempt % st.models.length
    let ki := attempt / st.models.length
    let st1 := { st with currentModel := st.models.getD mi "" }
    let entry := (st1.currentKey, mi)
    let r :=
      match oracle attempt with
      | .noText => scoreArticleAttempts oracle remaining (attempt + 1) st1 a
      | .raised msg =>
        match itemHandleErr st1 mi ki msg with
        | .cont st2 => scoreArticleAttempts oracle remaining (attempt + 1) st2 a
        | .exhaustBatch st2 => ⟨st2, a, some 5, []⟩
      | .parsed sc reason =>
        match coerceScore sc 0 with
        | .error msg =>
          match itemHandleErr st1 mi ki msg with
          | .cont st2 => scoreArticleAttempts oracle remaining (attempt + 1) st2 a
          | .exhaustBatch st2 => ⟨st2, a, some 5, []⟩
        | .ok q =>
          ⟨st1, { a with relevance_reason := reason.getD "No reason provided" },
            some q, []⟩
    ⟨r.st, r.article, r.result, entry :: r.trace⟩

/-- ai.py 317–400, `score_article`: guard `if not self.model: return 0.0`,
then the attempt loop with `max_attempts = |keys| * |models|`; a loop
that falls through returns the 5.0 default (line 400). -/
def scoreArticle (st : ScorerSt) (oracle : Nat → SingleApiResult)
    (a : Article) : ScorerSt × Article × ℚ × List (Nat × Nat) :=
  if st.numKeys = 0 then (st, a, 0, [])
  else
    let r := scoreArticleAttempts oracle (st.numKeys * st.models.length) 0 st a
    (r.st, r.article, r.result.getD 5, r.trace)

/-! ### Basic list facts -/

theorem set_getD_self (l : List α) (i : Nat) (d : α) : l.set i (l.getD i d) = l := by
  induction l generalizing i with
  | nil => rfl
  | cons a t ih =>
    cases i with
    | zero => simp
    | succ n => simpa [List.getD] using ih n

theorem lookup_isSome_append {s : ScoresDict} {k : String}
    (p : ScoresDict) (h : (s.lookup k).isSome) : ((p ++ s).lookup k).isSome := by
  induction p with
  | nil => simpa using h
  | cons x t ih =>
    rcases x with ⟨k', v⟩
    rw [List.cons_append, List.lookup_cons]
    rcases hk : k == k' <;> simp [hk, ih]

theorem lookup_isSome_suffix {s s' : ScoresDict} (h : s <:+ s') {k : String}
    (hk : (s.lookup k).isSome) : (s'.lookup k).isSome := by
  rcases h with ⟨p, rfl⟩
  exact lookup_isSome_append p hk

/-- The content hashes of a list of articles, in order: the observable
that connects the batch to the `scores` dict. -/
def hashes (l : List Article) : List String := l.map (·.content_hash)

theorem hashes_set_score (l : List Article) (i : Nat) (q : ℚ) :
    hashes (l.set i { l.getD i default with score := q }) = hashes l := by
  unfold hashes
  rw [List.map_set]
  have : (({ l.getD i default with score := q } : Article)).content_hash
      = (l.map (·.content_hash)).getD i ((default : Article).content_hash) := by
    rw [List.getD_map]
  rw [this, set_getD_self]

/-! ### `applyScoreJudgments` invariants -/

theorem applyScore_suffix (items : List JudgmentItem) :
    ∀ arts scores, scores <:+ (applyScoreJudgments arts scores items).2.1 := by
  induction items with
  | nil => intro arts scores; exact List.suffix_refl _
  | cons j rest ih =>
    intro arts scores
    show scores <:+ (applyScoreJudgments arts scores (j :: rest)).2.1
    rw [applyScoreJudgments]
    rcases coerceScore j.score 5 with m | q
    · exact List.suffix_refl _
    · dsimp only
      split
      · exact (List.suffix_cons _ _).trans (ih _ _)
      · exact ih _ _

theorem applyScore_hashes (items : List JudgmentItem) :
    ∀ arts scores, hashes (applyScoreJudgments arts scores items).1 = hashes arts := by
  induction items with
  | nil => intro arts scores; rfl
  | cons j rest ih =>
    intro arts scores
    rw [applyScoreJudgments]
    rcases coerceScore j.score 5 with m | q
    · rfl
    · dsimp only
      split
      · rw [ih, hashes_set_score]
      · exact ih _ _

theorem applyScore_length (items : List JudgmentItem) :
    ∀ arts scores, (applyScoreJudgments arts scores items).1.length = arts.length := by
  intro arts scores
  have := applyScore_hashes items arts scores
  simpa [hashes] using congrArg List.length this

/-! ### `fillMissing` invariants -/

theorem fillMissing_suffix (l : List Article) :
    ∀ scores, scores <:+ (fillMissing l scores).2 := by
  induction l with
  | nil => intro scores; exact List.suffix_refl _
  | cons a rest ih =>
    intro scores
    rw [fillMissing]
    split
    · exact ih scores
    · exact (List.suffix_cons _ _).trans (ih _)

theorem fillMissing_hashes (l : List Article) :
    ∀ scores, hashes (fillMissing l scores).1 = hashes l := by
  induction l with
  | nil => intro scores; rfl
  | cons a rest ih =>
    intro scores
    rw [fillMissing]
    split <;> simp [hashes] at ih ⊢ <;> exact ih _

theorem fillMissing_lookup_isSome (l : List Article) :
    ∀ scores, ∀ k ∈ hashes l, (((fillMissing l scores).2).lookup k).isSome := by
  induction l with
  | nil => intro scores k hk; simp [hashes] at hk
  | cons a rest ih =>
    intro scores k hk
    rcases List.mem_cons.mp hk with hk | hk
    · subst hk
      rw [fillMissing]
      split
      · exact lookup_isSome_suffix (fillMissing_suffix rest scores) (by assumption)
      · refine lookup_isSome_suffix (fillMissing_suffix rest _) ?_
        simp [List.lookup_cons]
    · rw [fillMissing]
      split
      · exact ih scores k hk
      · exact ih _ k hk

theorem fillMissing_lookup_eq (l : List Article) :
    ∀ scores (k : String), (scores.lookup k).isSome →
      ((fillMissing l scores).2).lookup k = scores.lookup k := by
  induction l with
  | nil => intro scores k _; rfl
  | cons a rest ih =>
    intro scores k hk
    rw [fillMissing]
    split
    · exact ih scores k hk
    · have hne : (k == a.content_hash) = false := by
        refine beq_eq_false_iff_ne.mpr ?_
        intro h
        subst h
        simp_all
      rw [ih _ k (by simp [List.lookup_cons, hne, hk])]
      simp [List.lookup_cons, hne]

theorem fillMissing_elem_eq (l : List Article) :
    ∀ scores (i : Nat),
      ((scores.lookup ((l.getD i default).content_hash)).isSome) →
      (fillMissing l scores).1.getD i default = l.getD i default := by
  induction l with
  | nil => intro scores i _; rfl
  | cons a rest ih =>
    intro scores i h
    rw [fillMissing]
    cases i with
    | zero =>
      split
      · rfl
      · simp_all
    | succ n =>
      split
      · simpa using ih scores n (by simpa using h)
      · simp only [List.getD_cons_succ] at h ⊢
        exact ih _ n (lookup_isSome_suffix (List.suffix_cons _ _) h)

/-! ### `scoreDefaultAll` invariants -/

theorem foldlHash_suffix (l : List Article) :
    ∀ scores : ScoresDict,
      scores <:+ l.foldl (fun sc a => (a.content_hash, (5 : ℚ)) :: sc) scores := by
  induction l with
  | nil => intro scores; exact List.suffix_refl _
  | cons a rest ih =>
    intro scores
    exact ((List.suffix_cons _ _).trans (ih _))

theorem foldlHash_lookup_isSome (l : List Article) :
    ∀ scores : ScoresDict, ∀ k ∈ hashes l,
      ((l.foldl (fun sc a => (a.content_hash, (5 : ℚ)) :: sc) scores).lookup k).isSome := by
  induction l with
  | nil => intro scores k hk; simp [hashes] at hk
  | cons a rest ih =>
    intro scores k hk
    rcases List.mem_cons.mp hk with hk | hk
    · subst hk
      refine lookup_isSome_suffix (foldlHash_suffix rest _) ?_
      simp [List.lookup_cons]
    · exact ih _ k hk

theorem scoreDefaultAll_suffix (l : List Article) (scores : ScoresDict) :
    scores <:+ (scoreDefaultAll l scores).2 :=
  foldlHash_suffix l scores

theorem scoreDefaultAll_lookup_isSome (l : List Article) (scores : ScoresDict) :
    ∀ k ∈ hashes l, (((scoreDefaultAll l scores).2).lookup k).isSome :=
  foldlHash_lookup_isSome l scores

theorem scoreDefaultAll_hashes (l : List Article) (scores : ScoresDict) :
    hashes (scoreDefaultAll l scores).1 = hashes l := by
  simp [scoreDefaultAll, hashes]

/-! ### Scoring attempt-loop invariants -/

theorem scoreAttempts_hashes (oracle : Nat → ApiResult) :
    ∀ rem attempt st arts scores,
      hashes (scoreAttempts oracle rem attempt st arts scores).arts = hashes arts := by
  intro rem
  induction rem with
  | zero => intro attempt st arts scores; rfl
  | succ n ih =>
    intro attempt st arts scores
    rw [scoreAttempts]
    dsimp only
    split
    · exact ih _ _ _ _
    · split
      · exact ih _ _ _ _
      · exact scoreDefaultAll_hashes arts scores
    · next items hor =>
      split
      · next arts' scores' msg heq =>
        have hh : hashes arts' = hashes arts := by
          have h2 := applyScore_hashes items arts scores
          rw [heq] at h2
          exact h2
        split
        · rw [ih _ _ _ _, hh]
        · rw [scoreDefaultAll_hashes, hh]
      · next arts' scores' heq =>
        have hh : hashes arts' = hashes arts := by
          have h2 := applyScore_hashes items arts scores
          rw [heq] at h2
          exact h2
        dsimp only
        rw [fillMissing_hashes, hh]

theorem scoreAttempts_suffix (oracle : Nat → ApiResult) :
    ∀ rem attempt st arts scores,
      scores <:+ (scoreAttempts oracle rem attempt st arts scores).scores := by
  intro rem
  induction rem with
  | zero => intro attempt st arts scores; exact List.suffix_refl _
  | succ n ih =>
    intro attempt st arts scores
    rw [scoreAttempts]
    dsimp only
    split
    · exact ih _ _ _ _
    · split
      · exact ih _ _ _ _
      · exact scoreDefaultAll_suffix arts scores
    · next items hor =>
      split
      · next arts' scores' msg heq =>
        have hs : scores <:+ scores' := by
          have h2 := applyScore_suffix items arts scores
          rw [heq] at h2
          exact h2
        split
        · exact hs.trans (ih _ _ _ _)
        · exact hs.trans (scoreDefaultAll_suffix _ _)
      · next arts' scores' heq =>
        have hs : scores <:+ scores' := by
          have h2 := applyScore_suffix items arts scores
          rw [heq] at h2
          exact h2
        exact hs.trans (fillMissing_suffix _ _)

theorem scoreAttempts_success_lookup (oracle : Nat → ApiResult) :
    ∀ rem attempt st arts scores,
      (scoreAttempts oracle rem attempt st arts scores).success = true →
      ∀ k ∈ hashes arts,
        (((scoreAttempts oracle rem attempt st arts scores).scores).lookup k).isSome := by
  intro rem
  induction rem with
  | zero =>
    intro attempt st arts scores h
    exact absurd h (by simp [scoreAttempts])
  | succ n ih =>
    intro attempt st arts scores
    rw [scoreAttempts]
    dsimp only
    split
    · exact ih _ _ _ _
    · split
      · exact ih _ _ _ _
      · intro _ k hk
        exact scoreDefaultAll_lookup_isSome arts scores k hk
    · next items hor =>
      split
      · next arts' scores' msg heq =>
        have hh : hashes arts' = hashes arts := by
          have h2 := applyScore_hashes items arts scores
          rw [heq] at h2
          exact h2
        split
        · intro hs k hk
          exact ih _ _ _ _ hs k (by rw [hh]; exact hk)
        · intro _ k hk
          exact scoreDefaultAll_lookup_isSome _ _ k (by rw [hh]; exact hk)
      · next arts' scores' heq =>
        have hh : hashes arts' = hashes arts := by
          have h2 := applyScore_hashes items arts scores
          rw [heq] at h2
          exact h2
        intro _ k hk
        exact fillMissing_lookup_isSome arts' scores' k (by rw [hh]; exact hk)

theorem scoreOneBatch_lookup_isSome (st : ScorerSt) (oracle : Nat → ApiResult)
    (batch : List Article) (scores : ScoresDict) :
    ∀ k ∈ hashes batch,
      (((scoreOneBatch st oracle batch scores).scores).lookup k).isSome := by
  intro k hk
  rw [scoreOneBatch]
  dsimp only
  split
  · exact scoreAttempts_success_lookup oracle _ _ _ _ _ (by assumption) k hk
  · dsimp only
    refine scoreDefaultAll_lookup_isSome _ _ k ?_
    rw [scoreAttempts_hashes]
    exact hk

theorem scoreOneBatch_suffix (st : ScorerSt) (oracle : Nat → ApiResult)
    (batch : List Article) (scores : ScoresDict) :
    scores <:+ (scoreOneBatch st oracle batch scores).scores := by
  rw [scoreOneBatch]
  dsimp only
  split
  · exact scoreAttempts_suffix oracle _ _ _ _ _
  · exact (scoreAttempts_suffix oracle _ _ _ _ _).trans (scoreDefaultAll_suffix _ _)

/-! ### Batch slicing and the multi-batch fold -/

theorem chunksGo_flatten (bs : Nat) (hbs : 0 < bs) :
    ∀ fuel (l : List α), l.length ≤ fuel → (chunksGo bs fuel l).flatten = l := by
  intro fuel
  induction fuel with
  | zero =>
    intro l hl
    have : l = [] := List.eq_nil_of_length_eq_zero (Nat.le_zero.mp hl)
    subst this
    rfl
  | succ n ih =>
    intro l hl
    cases l with
    | nil => rfl
    | cons a t =>
      rw [chunksGo, List.flatten_cons, ih _ ?_, List.take_append_drop]
      · rw [List.length_drop]
        simp only [List.length_cons] at hl ⊢
        omega
      · simp

theorem chunkList_flatten (bs : Nat) (hbs : 0 < bs) (l : List α) :
    (chunkList bs l).flatten = l :=
  chunksGo_flatten bs hbs l.length l le_rfl

theorem batchScoreGo_suffix (oracle : Nat → Nat → ApiResult) :
    ∀ chunks bIdx st scores,
      scores <:+ (batchScoreGo oracle bIdx st scores chunks).2.2 := by
  intro chunks
  induction chunks with
  | nil => intro bIdx st scores; exact List.suffix_refl _
  | cons b rest ih =>
    intro bIdx st scores
    exact (scoreOneBatch_suffix st (oracle bIdx) b scores).trans (ih _ _ _)

theorem batchScoreGo_lookup_isSome (oracle : Nat → Nat → ApiResult) :
    ∀ chunks bIdx st scores, ∀ c ∈ chunks, ∀ k ∈ hashes c,
      (((batchScoreGo oracle bIdx st scores chunks).2.2).lookup k).isSome := by
  intro chunks
  induction chunks with
  | nil => intro bIdx st scores c hc; simp at hc
  | cons b rest ih =>
    intro bIdx st scores c hc k hk
    rcases List.mem_cons.mp hc with hc | hc
    · subst hc
      exact lookup_isSome_suffix (batchScoreGo_suffix oracle rest _ _ _)
        (scoreOneBatch_lookup_isSome st (oracle bIdx) c scores k hk)
    · exact ih _ _ _ c hc k hk

/-! ### `applyFilterJudgments` invariants -/

theorem applyFilter_length (items : List JudgmentItem) :
    ∀ arts approved, (applyFilterJudgments arts approved items).1.length = arts.length := by
  induction items with
  | nil => intro arts approved; rfl
  | cons j rest ih =>
    intro arts approved
    rw [applyFilterJudgments]
    rcases coerceScore j.score 0 with m | q
    · rfl
    · dsimp only
      split
      · rw [ih, List.length_set]
      · exact ih _ _

/-- Which indices end up in the approved list after a no-raise application
of filter judgments: exactly the old ones plus, for each record, the index
its 1-based id points at, provided the id is in range and the coerced
score is at least 6.0. -/
theorem applyFilter_mem (items : List JudgmentItem) :
    ∀ arts approved arts' approved',
      applyFilterJudgments arts approved items = (arts', approved', none) →
      ∀ i : Nat, i ∈ approved' ↔ i ∈ approved ∨
        ∃ j ∈ items, j.id.getD 0 = (i : Int) + 1 ∧ i < arts.length ∧
          ∃ q, coerceScore j.score 0 = Except.ok q ∧ 6 ≤ q := by
  induction items with
  | nil =>
    intro arts approved arts' approved' h i
    simp only [applyFilterJudgments, Prod.mk.injEq] at h
    obtain ⟨-, rfl, -⟩ := h
    simp
  | cons j rest ih =>
    intro arts approved arts' approved' h i
    rw [applyFilterJudgments] at h
    rcases hc : coerceScore j.score 0 with m | q
    · rw [hc] at h
      simp only [Prod.mk.injEq] at h
      exact absurd h.2.2 (by simp)
    · rw [hc] at h
      dsimp only at h
      by_cases hg : 1 ≤ j.id.getD 0 ∧ j.id.getD 0 ≤ (arts.length : Int) ∧ 6 ≤ q
      · rw [if_pos hg] at h
        have hmem := ih _ _ _ _ h i
        rw [List.length_set] at hmem
        rw [hmem]
        constructor
        · rintro (hi | hi)
          · rcases List.mem_append.mp hi with hi | hi
            · exact Or.inl hi
            · refine Or.inr ⟨j, List.mem_cons_self j rest, ?_, ?_, q, hc, hg.2.2⟩
              · have : i = (j.id.getD 0 - 1).toNat := List.mem_singleton.mp hi
                omega
              · have : i = (j.id.getD 0 - 1).toNat := List.mem_singleton.mp hi
                omega
          · rcases hi with ⟨j', hj', rest_cond⟩
            exact Or.inr ⟨j', List.mem_cons_of_mem j hj', rest_cond⟩
        · rintro (hi | ⟨j', hj', hid, hlt, q', hq', h6⟩)
          · exact Or.inl (List.mem_append.mpr (Or.inl hi))
          · rcases List.mem_cons.mp hj' with rfl | hj'
            · refine Or.inl (List.mem_append.mpr (Or.inr ?_))
              refine List.mem_singleton.mpr ?_
              omega
            · exact Or.inr ⟨j', hj', hid, hlt, q', hq', h6⟩
      · rw [if_neg hg] at h
        have hmem := ih _ _ _ _ h i
        rw [hmem]
        constructor
        · rintro (hi | ⟨j', hj', rest_cond⟩)
          · exact Or.inl hi
          · exact Or.inr ⟨j', List.mem_cons_of_mem j hj', rest_cond⟩
        · rintro (hi | ⟨j', hj', hid, hlt, q', hq', h6⟩)
          · exact Or.inl hi
          · rcases List.mem_cons.mp hj' with rfl | hj'
            · exfalso
              rw [hc] at hq'
              have hqq : q' = q := by
                injection hq' with hh
                exact hh.symm
              subst hqq
              exact hg ⟨by omega, by omega, h6⟩
            · exact Or.inr ⟨j', hj', hid, hlt, q', hq', h6⟩

/-! ### Concrete fixtures -/

def artA : Article := ⟨"tA", "src", "sum", "body", "hA", 0, ""⟩

def artB : Article := ⟨"tB", "src", "sum", "body", "hB", 0, ""⟩

def artC : Article := ⟨"tC", "src", "sum", "body", "hC", 0, ""⟩

/-- Two credentials, endpoint catalog [E0, E1, E2], fresh pointers. -/
def st2x3 : ScorerSt := ⟨2, 0, ["E0", "E1", "E2"], "E0"⟩

def st1x3 : ScorerSt := ⟨1, 0, ["E0", "E1", "E2"], "E0"⟩

def st1x2 : ScorerSt := ⟨1, 0, ["E0", "E1"], "E0"⟩

def st1x1 : ScorerSt := ⟨1, 0, ["E0"], "E0"⟩

/-- Every request fails with an HTTP 429 quota error. -/
def quotaOracle : Nat → ApiResult :=
  fun _ => .raised "429 Resource has been exhausted (e.g. check quota)"

/-- Same, for the single-item code path. -/
def quotaOracleS : Nat → SingleApiResult :=
  fun _ => .raised "429 Resource has been exhausted (e.g. check quota)"

/-! ### Claims -/

/-- C1: in every attempt loop the (credential, endpoint) pair for attempt
counter n is derived as endpoint = n mod |endpoints|,
credential = n div |endpoints|; with credentials [C0, C1] and endpoints
[E0, E1, E2] under repeated quota errors, all three loops issue requests
as (C0,E0), (C0,E1), (C0,E2), (C1,E0), (C1,E1), (C1,E2) and then
exhaust: the batch loops default the batch with `batch_success` set, the
single-item loop returns the 5.0 sentinel. -/
theorem attempt_matrix_order :
    (filterOneBatch st2x3 quotaOracle [artA]).trace
        = [(0, 0), (0, 1), (0, 2), (1, 0), (1, 1), (1, 2)]
      ∧ (scoreOneBatch st2x3 quotaOracle [artA] []).trace
        = [(0, 0), (0, 1), (0, 2), (1, 0), (1, 1), (1, 2)]
      ∧ (scoreArticle st2x3 quotaOracleS artA).2.2.2
        = [(0, 0), (0, 1), (0, 2), (1, 0), (1, 1), (1, 2)]
      ∧ (filterOneBatch st2x3 quotaOracle [artA]).success = true
      ∧ (scoreOneBatch st2x3 quotaOracle [artA] []).success = true
      ∧ (scoreArticle st2x3 quotaOracleS artA).2.2.1 = 5 := by
  decide

/-- C9: the approved output of the filter+score variant is not
duplicate-free — a parsed judgment array naming id 1 twice with scores
7.0 and 8.0 over a one-article batch appends the article twice, and both
occurrences carry the last record's score (8.0), since the appended
entries alias the same object. -/
theorem approved_output_duplicates :
    (batchFilterAndScoreArticles st1x1
        (fun _ _ => .parsed [⟨some 1, some (.num 7)⟩, ⟨some 1, some (.num 8)⟩])
        [artA] 40).2
      = [{ artA with score := 8 }, { artA with score := 8 }]
    ∧ (filterOneBatch st1x1
        (fun _ => .parsed [⟨some 1, some (.num 7)⟩, ⟨some 1, some (.num 8)⟩])
        [artA]).approved = [0, 0] := by
  decide

/-- C8: `_rotate_api_key` advances the current credential circularly
(modulo the pool size) and reports success; on a pool of at most one
credential it is a no-op reporting failure; and with exactly one
credential an all-quota batch runs exactly the |endpoints|-attempt
endpoint sweep — trace [(0,0),(0,1),(0,2)], credential pointer never
moved — before exhausting into the defaulted-success outcome. -/
theorem rotate_contract :
    (∀ s : ScorerSt, s.numKeys ≤ 1 → rotateApiKey s = (false, s))
    ∧ (∀ s : ScorerSt, 1 < s.numKeys →
        rotateApiKey s = (true, { s with currentKey := (s.currentKey + 1) % s.numKeys }))
    ∧ (scoreOneBatch st1x3 quotaOracle [artA] []).trace = [(0, 0), (0, 1), (0, 2)]
    ∧ (scoreOneBatch st1x3 quotaOracle [artA] []).st.currentKey = 0
    ∧ (scoreOneBatch st1x3 quotaOracle [artA] []).success = true := by
  refine ⟨?_, ?_, by decide, by decide, by decide⟩
  · intro s h
    simp [rotateApiKey, h]
  · intro s h
    rw [rotateApiKey, if_neg (by omega)]

theorem rotate_contract_witness :
    rotateApiKey st1x1 = (false, st1x1)
    ∧ rotateApiKey st2x3 = (true, ⟨2, 1, ["E0", "E1", "E2"], "E0"⟩) := by
  constructor
  · exact rotate_contract.1 st1x1 (by decide)
  · have h := rotate_contract.2.1 st2x3 (by decide)
    rw [h]
    decide

/-- First attempt parses but yields zero judgments; a second attempt
would have approved the article. -/
def emptyThenGood : Nat → ApiResult := fun n =>
  if n = 0 then .parsed [] else .parsed [⟨some 1, some (.num 9)⟩]

/-- C3 counterexample: with one credential and two endpoints, the first
attempt succeeds and parses to zero judgment records.  The loop stops
right there as a success for the batch — one trace entry, nothing
approved — even though the next attempt's response would have approved
the article at 9.0.  This refutes "treated as a recoverable failure and
the loop advances to the next attempt". -/
theorem zero_judgments_cex :
    (filterOneBatch st1x2 emptyThenGood [artA]).success = true
    ∧ (filterOneBatch st1x2 emptyThenGood [artA]).trace = [(0, 0)]
    ∧ (filterOneBatch st1x2 emptyThenGood [artA]).approved = []
    ∧ (filterOneBatch st1x2 (fun _ => .parsed [⟨some 1, some (.num 9)⟩])
        [artA]).approved = [0] := by
  decide

theorem lookup_all5 (s : ScoresDict) (k : String)
    (h5 : ∀ p ∈ s, p.2 = (5 : ℚ)) (h : (s.lookup k).isSome) :
    s.lookup k = some 5 := by
  induction s with
  | nil => simp at h
  | cons p t ih =>
    rcases p with ⟨k', v⟩
    rw [List.lookup_cons] at h ⊢
    rcases hk : k == k' with _ | _
    · rw [hk] at h
      dsimp only at h ⊢
      exact ih (fun p hp => h5 p (List.mem_cons_of_mem _ hp)) h
    · have hv := h5 (k', v) (List.mem_cons_self _ _)
      dsimp only at hv ⊢
      rw [hv]

theorem fillMissing_all5 (l : List Article) :
    ∀ scores : ScoresDict, (∀ p ∈ scores, p.2 = (5 : ℚ)) →
      ∀ p ∈ (fillMissing l scores).2, p.2 = (5 : ℚ) := by
  induction l with
  | nil => intro scores h5; exact h5
  | cons a rest ih =>
    intro scores h5
    rw [fillMissing]
    split
    · exact ih scores h5
    · refine ih _ ?_
      intro p hp
      rcases List.mem_cons.mp hp with rfl | hp
      · rfl
      · exact h5 p hp

/-- C3 amended: a successful parse yielding zero usable judgment records
is treated as a SUCCESS for the batch, not as a recoverable failure: the
loop breaks after that single attempt.  The filter variant approves
nothing from the batch; the scoring variant (against an empty prior
dict) gives every item the 5.0 fill-in. -/
theorem zero_judgments_amended (st : ScorerSt) (oracle oracle2 : Nat → ApiResult)
    (batch : List Article)
    (hk : 0 < st.numKeys) (hm : 0 < st.models.length)
    (h0 : oracle 0 = .parsed []) (h02 : oracle2 0 = .parsed []) :
    (filterOneBatch st oracle batch).success = true
    ∧ (filterOneBatch st oracle batch).approved = []
    ∧ (filterOneBatch st oracle batch).trace = [(st.currentKey, 0)]
    ∧ ∀ a ∈ batch,
        ((scoreOneBatch st oracle2 batch []).scores.lookup a.content_hash) = some 5 := by
  obtain ⟨rem, hrem⟩ : ∃ rem, st.numKeys * st.models.length = rem + 1 :=
    ⟨_, (Nat.succ_pred_eq_of_pos (Nat.mul_pos hk hm)).symm⟩
  have hfil : filterOneBatch st oracle batch
      = ⟨{ st with currentModel := st.models.getD 0 "" }, batch, [], true,
          [(st.currentKey, 0)]⟩ := by
    rw [filterOneBatch]
    dsimp only
    rw [hrem, filterAttempts, h0]
    dsimp only [applyFilterJudgments]
    simp
  have hsc : scoreOneBatch st oracle2 batch []
      = ⟨{ st with currentModel := st.models.getD 0 "" },
          (fillMissing batch []).1, (fillMissing batch []).2, true,
          [(st.currentKey, 0)]⟩ := by
    rw [scoreOneBatch]
    dsimp only
    rw [hrem, scoreAttempts, h02]
    dsimp only [applyScoreJudgments]
    simp
  refine ⟨by rw [hfil], by rw [hfil], by rw [hfil], ?_⟩
  intro a ha
  rw [hsc]
  dsimp only
  refine lookup_all5 _ _ (fillMissing_all5 batch [] (by simp)) ?_
  exact fillMissing_lookup_isSome batch [] a.content_hash
    (List.mem_map_of_mem _ ha)

theorem zero_judgments_amended_witness :
    (filterOneBatch st1x2 (fun _ => .parsed []) [artA]).approved = []
    ∧ ((scoreOneBatch st1x2 (fun _ => .parsed []) [artA] []).scores.lookup "hA")
        = some 5 := by
  have h := zero_judgments_amended st1x2 (fun _ => .parsed [])
    (fun _ => .parsed []) [artA] (by decide) (by decide) rfl rfl
  exact ⟨h.2.1, h.2.2.2 artA (by simp)⟩

/-- A parsed response whose first record has a non-coercible score and
whose second record is a valid 9.0. -/
def badThenGoodItems : List JudgmentItem :=
  [⟨some 1, some (.bad "could not convert string to float")⟩,
   ⟨some 2, some (.num 9)⟩]

/-- C4 counterexample: a response carrying a non-coercible score for
record 1 and a valid 9.0 for record 2.  Were the bad record discarded
per-record, article 2 would be approved at 9.0 (filter variant) and
scored 9.0 (scoring variant).  Instead `float` raises, the generic error
arm defaults the WHOLE batch: the filter variant appends both articles
at the 6.0 sentinel, the scoring variant maps both hashes to 5.0, and
record 2's 9.0 never lands — the non-coercible score is batch-fatal,
refuting the claim. -/
theorem bad_score_cex :
    (filterOneBatch st1x1 (fun _ => .parsed badThenGoodItems) [artA, artB]).approved
        = [0, 1]
    ∧ (filterOneBatch st1x1 (fun _ => .parsed badThenGoodItems) [artA, artB]).arts
        = [{ artA with score := 6 }, { artB with score := 6 }]
    ∧ (filterOneBatch st1x1 (fun _ => .parsed badThenGoodItems)
        [artA, artB]).success = true
    ∧ ((scoreOneBatch st1x1 (fun _ => .parsed badThenGoodItems) [artA, artB]
        []).scores.lookup "hB") = some 5
    ∧ ((scoreOneBatch st1x1 (fun _ => .parsed badThenGoodItems) [artA, artB]
        []).scores.lookup "hA") = some 5
    ∧ (scoreOneBatch st1x1 (fun _ => .parsed badThenGoodItems) [artA, artB]
        []).success = true := by
  decide

theorem foldlHash_lookup_five_stable (l : List Article) :
    ∀ (scores : ScoresDict) (k : String), scores.lookup k = some 5 →
      (l.foldl (fun sc a => (a.content_hash, (5 : ℚ)) :: sc) scores).lookup k
        = some 5 := by
  induction l with
  | nil => intro scores k h; exact h
  | cons a rest ih =>
    intro scores k h
    rw [List.foldl_cons]
    refine ih _ k ?_
    rw [List.lookup_cons]
    rcases hk : k == a.content_hash with _ | _
    · dsimp only
      exact h
    · rfl

theorem foldlHash_lookup_eq_five (l : List Article) :
    ∀ scores : ScoresDict, ∀ k ∈ hashes l,
      (l.foldl (fun sc a => (a.content_hash, (5 : ℚ)) :: sc) scores).lookup k
        = some 5 := by
  induction l with
  | nil => intro scores k hk; simp [hashes] at hk
  | cons a rest ih =>
    intro scores k hk
    rw [List.foldl_cons]
    rcases List.mem_cons.mp hk with hk | hk
    · subst hk
      refine foldlHash_lookup_five_stable rest _ _ ?_
      rw [List.lookup_cons]
      simp
    · exact ih _ k hk

/-- C4 amended: a judgment record whose score cannot be coerced raises
inside the record loop, aborting the remaining records of the response;
the exception message reaches the generic arm of the `except`
classifier, which defaults the whole batch.  Filter variant: every
article is set to the 6.0 sentinel and the full batch is appended to the
approved list after whatever records had already been applied.  Scoring
variant: every article of the batch is set to 5.0 and its content hash
maps to 5.0 in the dict, the partial updates of the records before the
bad one being overwritten. -/
theorem bad_score_amended (st : ScorerSt) (oracle oracle2 : Nat → ApiResult)
    (batch batch2 : List Article) (items items2 : List JudgmentItem)
    (scores : ScoresDict)
    (arts' : List Article) (app' : List Nat) (msg : String)
    (arts2' : List Article) (scores2' : ScoresDict) (msg2 : String)
    (hk : 0 < st.numKeys) (hm : 0 < st.models.length)
    (h0 : oracle 0 = .parsed items)
    (happ : applyFilterJudgments batch [] items = (arts', app', some msg))
    (hcls : classifyError msg = .generic)
    (h02 : oracle2 0 = .parsed items2)
    (happ2 : applyScoreJudgments batch2 scores items2 = (arts2', scores2', some msg2))
    (hcls2 : classifyError msg2 = .generic) :
    (filterOneBatch st oracle batch).success = true
    ∧ (filterOneBatch st oracle batch).approved = app' ++ List.range batch.length
    ∧ (∀ a ∈ (filterOneBatch st oracle batch).arts, a.score = 6)
    ∧ (scoreOneBatch st oracle2 batch2 scores).success = true
    ∧ (∀ a ∈ batch2,
        ((scoreOneBatch st oracle2 batch2 scores).scores.lookup a.content_hash)
          = some 5)
    ∧ (∀ a ∈ (scoreOneBatch st oracle2 batch2 scores).arts, a.score = 5) := by
  obtain ⟨rem, hrem⟩ : ∃ rem, st.numKeys * st.models.length = rem + 1 :=
    ⟨_, (Nat.succ_pred_eq_of_pos (Nat.mul_pos hk hm)).symm⟩
  have hlen : arts'.length = batch.length := by
    have h2 := applyFilter_length items batch []
    rw [happ] at h2
    exact h2
  have hfil : filterOneBatch st oracle batch
      = ⟨{ st with currentModel := st.models.getD 0 "" },
          (filterDefaultAll arts' app').1, (filterDefaultAll arts' app').2, true,
          [(st.currentKey, 0)]⟩ := by
    rw [filterOneBatch]
    dsimp only
    rw [hrem, filterAttempts, h0]
    dsimp only
    rw [happ]
    dsimp only
    unfold batchHandleErr
    rw [hcls]
    simp
  have hsc : scoreOneBatch st oracle2 batch2 scores
      = ⟨{ st with currentModel := st.models.getD 0 "" },
          (scoreDefaultAll arts2' scores2').1, (scoreDefaultAll arts2' scores2').2,
          true, [(st.currentKey, 0)]⟩ := by
    rw [scoreOneBatch]
    dsimp only
    rw [hrem, scoreAttempts, h02]
    dsimp only
    rw [happ2]
    dsimp only
    unfold batchHandleErr
    rw [hcls2]
    simp
  have hh2 : hashes arts2' = hashes batch2 := by
    have h2 := applyScore_hashes items2 batch2 scores
    rw [happ2] at h2
    exact h2
  refine ⟨by rw [hfil], ?_, ?_, by rw [hsc], ?_, ?_⟩
  · rw [hfil]
    dsimp only [filterDefaultAll]
    rw [hlen]
  · intro a ha
    rw [hfil] at ha
    dsimp only [filterDefaultAll] at ha
    obtain ⟨b, -, rfl⟩ := List.mem_map.mp ha
    rfl
  · intro a ha
    rw [hsc]
    dsimp only [scoreDefaultAll]
    refine foldlHash_lookup_eq_five arts2' scores2' a.content_hash ?_
    rw [hh2]
    exact List.mem_map_of_mem _ ha
  · intro a ha
    rw [hsc] at ha
    dsimp only [scoreDefaultAll] at ha
    obtain ⟨b, -, rfl⟩ := List.mem_map.mp ha
    rfl

theorem bad_score_amended_witness :
    (filterOneBatch st1x1 (fun _ => .parsed [⟨some 1, some (.bad "boom")⟩])
        [artA]).approved = [] ++ List.range 1
    ∧ (∀ a ∈ (filterOneBatch st1x1 (fun _ => .parsed [⟨some 1, some (.bad "boom")⟩])
        [artA]).arts, a.score = 6)
    ∧ ((scoreOneBatch st1x1 (fun _ => .parsed [⟨some 1, some (.bad "boom")⟩])
        [artA] []).scores.lookup "hA") = some 5
    ∧ (∀ a ∈ (scoreOneBatch st1x1 (fun _ => .parsed [⟨some 1, some (.bad "boom")⟩])
        [artA] []).arts, a.score = 5) := by
  have h := bad_score_amended st1x1
    (fun _ => .parsed [⟨some 1, some (.bad "boom")⟩])
    (fun _ => .parsed [⟨some 1, some (.bad "boom")⟩])
    [artA] [artA] [⟨some 1, some (.bad "boom")⟩] [⟨some 1, some (.bad "boom")⟩]
    [] [artA] [] "boom" [artA] [] "boom"
    (by decide) (by decide) rfl (by decide) (by decide) rfl (by decide) (by decide)
  exact ⟨h.2.1, h.2.2.1, h.2.2.2.2.1 artA (by simp), h.2.2.2.2.2⟩

/-- First attempt raises a generic (non-404, non-quota) error; the second
parses to a 9.0 score. -/
def genericThenGoodS : Nat → SingleApiResult := fun n =>
  if n = 0 then .raised "transient backend failure"
  else .parsed (some (.num 9)) (some "good")

/-- C5 counterexample: in `score_article` a generic error at attempt 0 is
NOT terminal — the loop advances and returns the second attempt's 9.0
(two issued requests), where the claim demands an immediate default
outcome with no further attempts. -/
theorem item_generic_cex :
    (scoreArticle st1x2 genericThenGoodS artA).2.2.1 = 9
    ∧ (scoreArticle st1x2 genericThenGoodS artA).2.2.2 = [(0, 0), (0, 1)] := by
  decide

theorem scoreArticleAttempts_allGeneric (oracle : Nat → SingleApiResult)
    (hg : ∀ n, ∃ m, oracle n = .raised m ∧ classifyError m = .generic) :
    ∀ rem attempt st a,
      (scoreArticleAttempts oracle rem attempt st a).result = none
      ∧ (scoreArticleAttempts oracle rem attempt st a).trace.length = rem := by
  intro rem
  induction rem with
  | zero => intro attempt st a; exact ⟨rfl, rfl⟩
  | succ n ih =>
    intro attempt st a
    obtain ⟨m, hm, hcls⟩ := hg attempt
    rw [scoreArticleAttempts, hm]
    dsimp only
    unfold itemHandleErr
    rw [hcls]
    dsimp only
    refine ⟨(ih _ _ _).1, ?_⟩
    rw [List.length_cons, (ih _ _ _).2]

/-- C5 amended: `score_article` shares the attempt-matrix derivation and
the 404/quota policy of the batch loops, but a generic error is
RECOVERABLE for it (the loop advances), unlike the batch loops where it
is terminal; when every attempt raises a generic error the full
|keys|·|endpoints| matrix is walked and the 5.0 sentinel is returned
rather than an error propagating. -/
theorem item_generic_amended (st : ScorerSt) (oracle : Nat → SingleApiResult)
    (a : Article) (hk : 0 < st.numKeys)
    (hg : ∀ n, ∃ m, oracle n = .raised m ∧ classifyError m = .generic) :
    (scoreArticle st oracle a).2.2.1 = 5
    ∧ (scoreArticle st oracle a).2.2.2.length = st.numKeys * st.models.length := by
  rw [scoreArticle, if_neg (by omega)]
  dsimp only
  have h := scoreArticleAttempts_allGeneric oracle hg
    (st.numKeys * st.models.length) 0 st a
  rw [h.1]
  exact ⟨rfl, h.2⟩

theorem item_generic_amended_witness :
    (scoreArticle st1x2 (fun _ => .raised "boom") artA).2.2.1 = 5
    ∧ (scoreArticle st1x2 (fun _ => .raised "boom") artA).2.2.2.length = 2 := by
  have h := item_generic_amended st1x2 (fun _ => .raised "boom") artA (by decide)
    (fun _ => ⟨"boom", rfl, by decide⟩)
  exact ⟨h.1, h.2⟩

/-- C7: whenever credential rotation fires in the attempt loop (quota
error on the last endpoint with more credentials remaining), the very
next issued request uses endpoint index 0 under the circularly-advanced
credential, regardless of which endpoint failed before. -/
theorem rotation_resets_endpoint (st : ScorerSt) (oracle : Nat → ApiResult)
    (arts : List Article) (approved : List Nat) (r attempt : Nat) (msg : String)
    (hor : oracle attempt = .raised msg) (hq : classifyError msg = .quota)
    (hlen : 0 < st.models.length)
    (hmi : attempt % st.models.length = st.models.length - 1)
    (hki : attempt / st.models.length < st.numKeys - 1) :
    (filterAttempts oracle (r + 2) attempt st arts approved).trace.getD 0 (0, 0)
        = (st.currentKey, st.models.length - 1)
    ∧ (filterAttempts oracle (r + 2) attempt st arts approved).trace.getD 1 (0, 0)
        = ((st.currentKey + 1) % st.numKeys, 0) := by
  have hmod : (attempt + 1) % st.models.length = 0 := by
    rcases Nat.lt_or_ge 1 st.models.length with h2 | h2
    · rw [Nat.add_mod, hmi, Nat.mod_eq_of_lt h2, Nat.sub_add_cancel (by omega),
        Nat.mod_self]
    · have h1 : st.models.length = 1 := by omega
      rw [h1]
      exact Nat.mod_one _
  have hrot : ¬ st.numKeys ≤ 1 := by
    intro hle
    have h0 : st.numKeys - 1 = 0 := by omega
    rw [h0] at hki
    exact Nat.not_lt_zero _ hki
  rw [filterAttempts, hor]
  dsimp only
  unfold batchHandleErr
  rw [hq]
  dsimp only
  rw [if_pos hmi, if_pos hki, rotateApiKey, if_neg hrot]
  dsimp only
  rw [filterAttempts]
  dsimp only
  rw [hmod, hmi]
  exact ⟨rfl, rfl⟩

theorem rotation_resets_endpoint_witness :
    (filterAttempts quotaOracle 2 2 st2x3 [artA] []).trace.getD 1 (0, 0) = (1, 0) := by
  have h := rotation_resets_endpoint st2x3 quotaOracle [artA] [] 0 2
    "429 Resource has been exhausted (e.g. check quota)" rfl
    (by decide) (by decide) (by decide) (by decide)
  exact h.2

/-- C6: on a successful first attempt whose parse yields `items` and
whose application raises nothing, an index appears in the approved
output of the filter+score batch iff some parsed record points at it
(its 1-based id in range) with a coerced score ≥ 6.0; below-threshold
records and unmentioned items are simply absent (rejection by absence,
not an error). -/
theorem approved_iff_threshold (st : ScorerSt) (oracle : Nat → ApiResult)
    (batch : List Article) (items : List JudgmentItem)
    (arts' : List Article) (app' : List Nat)
    (hk : 0 < st.numKeys) (hm : 0 < st.models.length)
    (h0 : oracle 0 = .parsed items)
    (happ : applyFilterJudgments batch [] items = (arts', app', none)) :
    ∀ i : Nat, i ∈ (filterOneBatch st oracle batch).approved ↔
      ∃ j ∈ items, j.id.getD 0 = (i : Int) + 1 ∧ i < batch.length ∧
        ∃ q, coerceScore j.score 0 = Except.ok q ∧ 6 ≤ q := by
  obtain ⟨rem, hrem⟩ : ∃ rem, st.numKeys * st.models.length = rem + 1 :=
    ⟨_, (Nat.succ_pred_eq_of_pos (Nat.mul_pos hk hm)).symm⟩
  have hfil : filterOneBatch st oracle batch
      = ⟨{ st with currentModel := st.models.getD 0 "" }, arts', app', true,
          [(st.currentKey, 0)]⟩ := by
    rw [filterOneBatch]
    dsimp only
    rw [hrem, filterAttempts, h0]
    dsimp only
    rw [happ]
    simp
  intro i
  rw [hfil]
  dsimp only
  rw [applyFilter_mem items batch [] arts' app' happ i]
  simp

/-- Fixture for the C6 witness: record 1 approved at 7.0, record 2
rejected at 5.0. -/
def itemsC6w : List JudgmentItem :=
  [⟨some 1, some (.num 7)⟩, ⟨some 2, some (.num 5)⟩]

theorem approved_iff_threshold_witness :
    0 ∈ (filterOneBatch st1x1 (fun _ => .parsed itemsC6w) [artA, artB]).approved
    ∧ ¬ 1 ∈ (filterOneBatch st1x1 (fun _ => .parsed itemsC6w) [artA, artB]).approved := by
  have h := approved_iff_threshold st1x1 (fun _ => .parsed itemsC6w) [artA, artB]
    itemsC6w [{ artA with score := 7 }, artB] [0]
    (by decide) (by decide) rfl (by decide)
  constructor
  · exact (h 0).mpr ⟨⟨some 1, some (.num 7)⟩, by simp [itemsC6w], by decide, by decide,
      7, rfl, by norm_num⟩
  · intro hmem
    obtain ⟨j, hj, hid, -, q, hq, h6⟩ := (h 1).mp hmem
    rcases List.mem_cons.mp hj with rfl | hj
    · exact absurd hid (by decide)
    · rcases List.mem_cons.mp hj with rfl | hj
      · rw [show q = 5 by injection hq with hh; exact hh.symm] at h6
        norm_num at h6
      · simp at hj

theorem getD_set_self (l : List α) (i : Nat) (v d : α) (h : i < l.length) :
    (l.set i v).getD i d = v := by
  rw [List.getD_eq_getElem _ _ (by simpa using h)]
  exact List.getElem_set_self _

/-- C10: parsed scores are not range-validated in `batch_score_articles`:
a judgment record with an in-range 1-based id and ANY float-coercible
score q (q < 0 and q > 10 included) is stored unchanged in the returned
dict and on the article's score field — only the ordinal is checked. -/
theorem score_not_range_checked (st : ScorerSt) (oracle : Nat → ApiResult)
    (batch : List Article) (scores : ScoresDict) (i : Int) (q : ℚ)
    (hk : 0 < st.numKeys) (hm : 0 < st.models.length)
    (h0 : oracle 0 = .parsed [⟨some i, some (.num q)⟩])
    (hi1 : 1 ≤ i) (hi2 : i ≤ (batch.length : Int)) :
    ((scoreOneBatch st oracle batch scores).scores.lookup
        ((batch.getD (i - 1).toNat default).content_hash)) = some q
    ∧ ((scoreOneBatch st oracle batch scores).arts.getD (i - 1).toNat default).score
        = q := by
  obtain ⟨rem, hrem⟩ : ∃ rem, st.numKeys * st.models.length = rem + 1 :=
    ⟨_, (Nat.succ_pred_eq_of_pos (Nat.mul_pos hk hm)).symm⟩
  set i' := (i - 1).toNat with hi'
  set a := batch.getD i' default with ha
  set arts' := batch.set i' { a with score := q } with harts
  set scores' : ScoresDict := (a.content_hash, q) :: scores with hscores
  have happ : applyScoreJudgments batch scores [⟨some i, some (.num q)⟩]
      = (arts', scores', none) := by
    rw [applyScoreJudgments]
    dsimp only [coerceScore]
    rw [if_pos ⟨by simpa using hi1, by simpa using hi2⟩]
    rfl
  have hone : scoreOneBatch st oracle batch scores
      = ⟨{ st with currentModel := st.models.getD 0 "" },
          (fillMissing arts' scores').1, (fillMissing arts' scores').2, true,
          [(st.currentKey, 0)]⟩ := by
    rw [scoreOneBatch]
    dsimp only
    rw [hrem, scoreAttempts, h0]
    dsimp only
    rw [happ]
    simp
  have hlt : i' < batch.length := by omega
  have hsome : (scores'.lookup a.content_hash).isSome := by
    rw [hscores, List.lookup_cons]
    simp
  rw [hone]
  dsimp only
  constructor
  · rw [fillMissing_lookup_eq arts' scores' a.content_hash hsome, hscores,
      List.lookup_cons]
    simp
  · have helem : (fillMissing arts' scores').1.getD i' default
        = arts'.getD i' default := by
      refine fillMissing_elem_eq arts' scores' i' ?_
      rw [harts, getD_set_self batch i' _ default hlt]
      exact hsome
    rw [helem, harts, getD_set_self batch i' _ default hlt]

theorem score_not_range_checked_witness :
    ((scoreOneBatch st1x1 (fun _ => .parsed [⟨some 1, some (.num 42)⟩])
        [artA] []).scores.lookup "hA") = some 42
    ∧ ((scoreOneBatch st1x1 (fun _ => .parsed [⟨some 1, some (.num (-3))⟩])
        [artA] []).arts.getD 0 default).score = -3 := by
  constructor
  · have h := score_not_range_checked st1x1
      (fun _ => .parsed [⟨some 1, some (.num 42)⟩]) [artA] [] 1 42
      (by decide) (by decide) rfl (by decide) (by decide)
    exact h.1
  · have h := score_not_range_checked st1x1
      (fun _ => .parsed [⟨some 1, some (.num (-3))⟩]) [artA] [] 1 (-3)
      (by decide) (by decide) rfl (by decide) (by decide)
    exact h.2

/-- Every request of every batch fails with an HTTP 429 quota error. -/
def quotaOracle2 : Nat → Nat → ApiResult :=
  fun _ _ => .raised "429 Resource has been exhausted (e.g. check quota)"

/-- C2: `batch_score_articles` is total — for every article list, oracle
behaviour, scorer state and positive batch size, every article's content
hash is a defined key of the returned dict (no exception reaches the
caller: the function is a total Lean function over all oracle
behaviours).  Concretely, with one credential and three endpoints under
all-quota errors, a 3-article call gives every item the 5.0 sentinel,
and the combined filter+score variant keeps the whole batch in the
approved output at the 6.0 sentinel. -/
theorem batch_scoring_total (st : ScorerSt) (oracle : Nat → Nat → ApiResult)
    (articles : List Article) (bs : Nat) (hbs : 0 < bs) :
    (∀ a ∈ articles,
      (((batchScoreArticles st oracle articles bs).2.2).lookup a.content_hash).isSome)
    ∧ (∀ a ∈ [artA, artB, artC],
        ((batchScoreArticles st1x3 quotaOracle2 [artA, artB, artC] 40).2.2.lookup
          a.content_hash) = some 5)
    ∧ (batchFilterAndScoreArticles st1x3 quotaOracle2 [artA, artB, artC] 40).2
        = [{ artA with score := 6 }, { artB with score := 6 },
           { artC with score := 6 }] := by
  refine ⟨?_, by decide, by decide⟩
  intro a ha
  rw [batchScoreArticles]
  split
  · dsimp only
    exact foldlHash_lookup_isSome articles [] a.content_hash
      (List.mem_map_of_mem _ ha)
  · have hmem : a ∈ (chunkList bs articles).flatten := by
      rw [chunkList_flatten bs hbs]
      exact ha
    obtain ⟨c, hc, hac⟩ := List.mem_flatten.mp hmem
    exact batchScoreGo_lookup_isSome oracle _ 0 st [] c hc a.content_hash
      (List.mem_map_of_mem _ hac)

theorem batch_scoring_total_witness :
    (((batchScoreArticles st1x2 (fun _ _ => .parsed []) [artA] 40).2.2).lookup
      "hA").isSome := by
  have h := batch_scoring_total st1x2 (fun _ _ => .parsed []) [artA] 40 (by decide)
  exact h.1 artA (by simp)

end CyberNews
